import Mathlib

/-!
Verification development for the microperspective-corrector repository.

The Python sources are shallowly embedded below:
* `src/src/crop.py` (Border Refiner): `crop_black_borders`, `get_binary_edges`,
  `navigate_edges`, `apply_cropping`, `remove_lateral_blacks`;
* `src/src/detect.py` (Region Detector): `find_page_contour`;
* `src/src/preprocess.py` (Binarizer): `estimate_threshold_and_border_rgb`;
* `src/edge_detection.py` + `src/src/utils.py` (Pipeline Controller and
  output stage): `process_tiff` / `save_outputs` data flow;
* `src/main.py` (batch driver): the per-image processing loop.

Images are modelled as dimensioned pixel functions; numpy slicing is modelled
with Python slice-bound normalisation (negative bounds count from the end;
`-0` is `0` and selects the whole axis, as in Python).  Machine floats in
`preprocess.py` are modelled by exact rationals (real-number semantics);
`int(...)` is truncation toward zero and Python `round` is modelled by
rounding to the nearest integer.  OpenCV primitives that are external to the
repository (contour extraction, polygon approximation, the affine warp
itself) are abstracted as parameters, while every line of repository logic
around them is translated directly.
-/

/-- A single-channel image (a numpy 2-D `uint8` array): height, width and a
total pixel-access function.  Values of `pix` outside `[0,h) × [0,w)` are
irrelevant wherever accesses are proved in bounds. -/
structure Mat where
  h : Nat
  w : Nat
  pix : Nat → Nat → Nat

/-- A 3-channel BGR colour image (a numpy `H×W×3` `uint8` array); a pixel is
the channel triple `(B, G, R)`. -/
structure Img where
  h : Nat
  w : Nat
  pix : Nat → Nat → Nat × Nat × Nat

/-- Normalisation of one Python slice bound `a[i:j]` on an axis of length `n`:
a negative bound counts from the end, and the result is clamped to `[0, n]`.
Note that `-0 = 0`, so a bound of `-b` with `b = 0` denotes the start of the
axis (hence `a[-0:]` is the whole axis), exactly as in Python. -/
def pyBound (i : Int) (n : Nat) : Nat :=
  min (if i < 0 then i + n else i).toNat n

/-- Basic numpy slicing `m[r0:r1, c0:c1]` of a single-channel array. -/
def matSlice (m : Mat) (r0 r1 c0 c1 : Int) : Mat :=
  let a := pyBound r0 m.h
  let b := pyBound r1 m.h
  let c := pyBound c0 m.w
  let d := pyBound c1 m.w
  ⟨b - a, d - c, fun r cc => m.pix (a + r) (c + cc)⟩

/-- Basic numpy slicing `m[r0:r1, c0:c1]` of a colour array. -/
def imgSlice (m : Img) (r0 r1 c0 c1 : Int) : Img :=
  let a := pyBound r0 m.h
  let b := pyBound r1 m.h
  let c := pyBound c0 m.w
  let d := pyBound c1 m.w
  ⟨b - a, d - c, fun r cc => m.pix (a + r) (c + cc)⟩

/-- `cv2.cvtColor(..., COLOR_BGR2GRAY)` on one BGR pixel:
`Y = 0.299 R + 0.587 G + 0.114 B`, rounded to the nearest integer. -/
def grayOf (p : Nat × Nat × Nat) : Nat :=
  (299 * p.2.2 + 587 * p.2.1 + 114 * p.1 + 500) / 1000

/-- The binarisation step of `get_binary_edges` (src/src/crop.py lines
194-200): grayscale conversion followed by
`cv2.threshold(gray, 50, 255, THRESH_BINARY_INV)` — a pixel with gray value
above 50 maps to 0 (content / foreground), the rest to 255 (black border /
background). -/
def binaryInv50 (img : Img) : Mat :=
  ⟨img.h, img.w, fun r c => if 50 < grayOf (img.pix r c) then 0 else 255⟩

/-- Length of the initial run of indices `i, i+1, ...` (at most `fuel` of
them) on which `p` holds: the number of completed iterations of a Python
`for i in range(fuel)` loop that breaks at the first index where `p` fails. -/
def runLen (p : Nat → Bool) : Nat → Nat → Nat
  | 0, _ => 0
  | fuel + 1, i => if p i then runLen p fuel (i + 1) + 1 else 0

/-- `np.all(binary[r, :] == 255)`: row `r` is entirely background. -/
def rowAllBg (b : Mat) (r : Nat) : Bool :=
  (List.range b.w).all (fun c => b.pix r c == 255)

/-- `np.all(binary[:, c] == 255)`: column `c` is entirely background. -/
def colAllBg (b : Mat) (c : Nat) : Bool :=
  (List.range b.h).all (fun r => b.pix r c == 255)

/-- The `top_black` boundary of `crop_black_borders` (src/src/crop.py lines
233-240): initialised to 0, then set to each row index scanned from the top
while the whole row is background, stopping at the first row that is not. -/
def topBlack (b : Mat) : Nat :=
  runLen (rowAllBg b) b.h 0 - 1

/-- The `bottom_black` boundary (src/src/crop.py lines 233, 243-247):
initialised to `h`, then set to each row index scanned from the bottom while
the whole row is background.  With `s` all-background rows at the bottom the
loop last assigns row `h - s`; with `s = 0` the initial value `h` remains. -/
def bottomBlack (b : Mat) : Nat :=
  b.h - runLen (fun i => rowAllBg b (b.h - 1 - i)) b.h 0

/-- The `left_black` boundary (src/src/crop.py lines 233, 250-254). -/
def leftBlack (b : Mat) : Nat :=
  runLen (colAllBg b) b.w 0 - 1

/-- The `right_black` boundary (src/src/crop.py lines 233, 257-261). -/
def rightBlack (b : Mat) : Nat :=
  b.w - runLen (fun i => colAllBg b (b.w - 1 - i)) b.w 0

/-- `crop_black_borders` (src/src/crop.py lines 220-267): Pass 1 of the
Border Refiner.  Both buffers are cut to
`[top_black+1 : bottom_black-1, left_black+1 : right_black-1]`; the `+1`/`-1`
trim is applied unconditionally. -/
def crop_black_borders (warped warped_white : Img) (binary : Mat) : Img × Img :=
  let t := topBlack binary
  let bb := bottomBlack binary
  let l := leftBlack binary
  let r := rightBlack binary
  (imgSlice warped ((t : Int) + 1) ((bb : Int) - 1) ((l : Int) + 1) ((r : Int) - 1),
   imgSlice warped_white ((t : Int) + 1) ((bb : Int) - 1) ((l : Int) + 1) ((r : Int) - 1))

/-- The four corner identifiers of the `edges` dictionary built by
`get_binary_edges` (src/src/crop.py lines 206-216), in its insertion order
top-left, top-right, bottom-left, bottom-right. -/
inductive CornerId
  | tl
  | tr
  | bl
  | br
deriving DecidableEq

/-- The corner anchor point `edges[name].point` (row, col) derived from the
binary image's shape (src/src/crop.py lines 206-209). -/
def cornerPoint (b : Mat) : CornerId → Int × Int
  | .tl => (0, 0)
  | .tr => (0, (b.w : Int) - 1)
  | .bl => ((b.h : Int) - 1, 0)
  | .br => ((b.h : Int) - 1, (b.w : Int) - 1)

/-- The corner scan direction `edges[name].direction` (src/src/crop.py lines
211-216). -/
def cornerDir : CornerId → Int × Int
  | .tl => (1, 1)
  | .tr => (1, -1)
  | .bl => (-1, 1)
  | .br => (-1, -1)

/-- Pixel access at `Int` coordinates; the navigation theorems prove that
every coordinate actually used is inside `[0,h) × [0,w)`, so the choice of
out-of-range behaviour is immaterial. -/
def Mat.pixI (b : Mat) (r c : Int) : Nat :=
  b.pix r.toNat c.toNat

/-- Row/column index accessed at step `i` of the row-axis scan of
`navigate_edges` (src/src/crop.py lines 156-161): `point = x + i*direction[0]`
with fixed column `y`. -/
def rowAccessIndex (b : Mat) (cid : CornerId) (i : Nat) : Int × Int :=
  ((cornerPoint b cid).1 + (i : Int) * (cornerDir cid).1, (cornerPoint b cid).2)

/-- Row/column index accessed at step `i` of the column-axis scan of
`navigate_edges` (src/src/crop.py lines 162-167). -/
def colAccessIndex (b : Mat) (cid : CornerId) (i : Nat) : Int × Int :=
  ((cornerPoint b cid).1, (cornerPoint b cid).2 + (i : Int) * (cornerDir cid).2)

/-- All pixel coordinates the Pass-2 corner navigation can touch for one
corner: the corner pixel itself, then every index of the row-axis loop
(`for i in range(binary.shape[0])`) and of the column-axis loop
(`for i in range(binary.shape[1])`); the executed accesses are a prefix of
each loop's index list. -/
def navAccesses (b : Mat) (cid : CornerId) : List (Int × Int) :=
  cornerPoint b cid ::
    ((List.range b.h).map (rowAccessIndex b cid) ++
     (List.range b.w).map (colAccessIndex b cid))

/-- Number of loop iterations of the row-axis scan before the first
non-background pixel (src/src/crop.py lines 156-161); at least 1 whenever the
corner pixel itself is background and `h ≥ 1`. -/
def rowRun (b : Mat) (cid : CornerId) : Nat :=
  runLen (fun i => b.pixI (rowAccessIndex b cid i).1 (rowAccessIndex b cid i).2 == 255) b.h 0

/-- Number of loop iterations of the column-axis scan before the first
non-background pixel (src/src/crop.py lines 162-167). -/
def colRun (b : Mat) (cid : CornerId) : Nat :=
  runLen (fun i => b.pixI (colAccessIndex b cid i).1 (colAccessIndex b cid i).2 == 255) b.w 0

/-- `discontinuities[0]` after the row-axis scan: the furthest row coordinate
still background, `x + (rowRun - 1) * direction[0]`. -/
def rowDiscont (b : Mat) (cid : CornerId) : Int :=
  (cornerPoint b cid).1 + ((rowRun b cid : Int) - 1) * (cornerDir cid).1

/-- `discontinuities[1]` after the column-axis scan. -/
def colDiscont (b : Mat) (cid : CornerId) : Int :=
  (cornerPoint b cid).2 + ((colRun b cid : Int) - 1) * (cornerDir cid).2

/-- `linear_distance_from_edge[0]` (src/src/crop.py line 169): the row-axis
displacement from the corner to the recorded discontinuity. -/
def rowDisp (b : Mat) (cid : CornerId) : Nat :=
  ((cornerPoint b cid).1 - rowDiscont b cid).natAbs

/-- `linear_distance_from_edge[1]`: the column-axis displacement. -/
def colDisp (b : Mat) (cid : CornerId) : Nat :=
  ((cornerPoint b cid).2 - colDiscont b cid).natAbs

/-- One entry of the `crop_points` dictionary of `navigate_edges`: the crop
point, the chosen axis (`direction` in the code: 0 = row, 1 = column) and the
keep side (`keep == 'after'` is `true`). -/
structure CropEntry where
  point : Int × Int
  axis : Nat
  keepAfter : Bool
deriving DecidableEq

/-- `navigate_edges` for one corner (src/src/crop.py lines 138-181).  If the
corner pixel is not background (255) no entry is produced.  Otherwise both
axis scans are performed, `np.argmin` picks the axis of smaller displacement
(the row axis on ties, as `argmin` returns the first minimum), the crop point
is the corner with the chosen component replaced by the discontinuity
coordinate, and the keep side is `after` exactly when the corner's scan
direction on the chosen axis equals 1. -/
def navigate_edges (b : Mat) (cid : CornerId) : Option CropEntry :=
  if b.pixI (cornerPoint b cid).1 (cornerPoint b cid).2 = 255 then
    some
      (if rowDisp b cid ≤ colDisp b cid then
        ⟨(rowDiscont b cid, (cornerPoint b cid).2), 0, (cornerDir cid).1 == 1⟩
      else
        ⟨((cornerPoint b cid).1, colDiscont b cid), 1, (cornerDir cid).2 == 1⟩)
  else none

/-- Iteration order of `apply_cropping` over the `edges` dictionary
(Python dict insertion order, src/src/crop.py lines 112, 211-216). -/
def cornerOrder : List CornerId :=
  [CornerId.tl, CornerId.tr, CornerId.bl, CornerId.br]

/-- One cropping step of `apply_cropping` (src/src/crop.py lines 117-134):
slice all three buffers on the entry's axis, keeping the part after or before
the crop point. -/
def applyCropOne (e : CropEntry) (bin : Mat) (c cw : Img) : Mat × Img × Img :=
  if e.axis = 0 then
    if e.keepAfter then
      (matSlice bin e.point.1 bin.h 0 bin.w,
       imgSlice c e.point.1 c.h 0 c.w,
       imgSlice cw e.point.1 cw.h 0 cw.w)
    else
      (matSlice bin 0 e.point.1 0 bin.w,
       imgSlice c 0 e.point.1 0 c.w,
       imgSlice cw 0 e.point.1 0 cw.w)
  else
    if e.keepAfter then
      (matSlice bin 0 bin.h e.point.2 bin.w,
       imgSlice c 0 c.h e.point.2 c.w,
       imgSlice cw 0 cw.h e.point.2 cw.w)
    else
      (matSlice bin 0 bin.h 0 e.point.2,
       imgSlice c 0 c.h 0 e.point.2,
       imgSlice cw 0 cw.h 0 e.point.2)

/-- `apply_cropping` (src/src/crop.py lines 98-136): the four corners' crop
decisions are applied sequentially in dictionary order to the current
buffers; corners without an entry are skipped. -/
def apply_cropping (cps : CornerId → Option CropEntry) (bin : Mat) (c cw : Img) :
    Mat × Img × Img :=
  cornerOrder.foldl
    (fun acc cid =>
      match cps cid with
      | none => acc
      | some e => applyCropOne e acc.1 acc.2.1 acc.2.2)
    (bin, c, cw)

/-- `remove_lateral_blacks` (src/src/crop.py lines 8-55), the Border Refiner:
binarise the colour crop, run Pass 1 (`crop_black_borders`), re-binarise the
coarsely cropped image (`get_binary_edges`), run Pass 2 (`navigate_edges` +
`apply_cropping`) and return the cropped white-background buffer. -/
def remove_lateral_blacks (warped warped_white : Img) : Img :=
  let binary := binaryInv50 warped
  let cropped := (crop_black_borders warped warped_white binary).1
  let cropped_white := (crop_black_borders warped warped_white binary).2
  let binary2 := binaryInv50 cropped
  (apply_cropping (navigate_edges binary2) binary2 cropped cropped_white).2.2

/-- One contour as delivered to the selection logic of `find_page_contour`
(src/src/detect.py): `area` is its `cv2.contourArea` and `approx` the
`cv2.approxPolyDP` approximation at 2% of its perimeter.  The OpenCV
extraction and approximation are external primitives; the repository's own
logic is the ordering and acceptance below. -/
structure Contour where
  area : Nat
  approx : List (Int × Int)
deriving DecidableEq

/-- Stable descending insertion for `sorted(contours, key=cv2.contourArea,
reverse=True)` (src/src/detect.py line 34): an element moves past another
only when the other's area is strictly larger, so equal-area contours keep
their original order, as Python's stable sort does. -/
def insertAreaDesc (c : Contour) : List Contour → List Contour
  | [] => [c]
  | x :: xs => if c.area < x.area then x :: insertAreaDesc c xs else c :: x :: xs

/-- `sorted(contours, key=cv2.contourArea, reverse=True)`. -/
def sortAreaDesc : List Contour → List Contour
  | [] => []
  | c :: cs => insertAreaDesc c (sortAreaDesc cs)

/-- The selection loop of `find_page_contour` (src/src/detect.py lines
33-57): sort the contours by area in descending order and return the first
whose approximation has at least 4 vertices; if none qualifies return `None`.
No candidate is rejected on grounds of its area. -/
def find_page_contour (contours : List Contour) : Option Contour :=
  (sortAreaDesc contours).find? (fun c => decide (4 ≤ c.approx.length))

/-- A rectangle of pixel coordinates: rows `[r0, r1)` times columns
`[c0, c1)`. -/
structure Rect where
  r0 : Nat
  r1 : Nat
  c0 : Nat
  c1 : Nat

/-- Number of pixels of a `Rect`. -/
def rectCnt (t : Rect) : Nat :=
  (t.r1 - t.r0) * (t.c1 - t.c0)

/-- Sum, as a rational, of a channel accessor over the rows and columns of a
`Rect`. -/
def rectSum (f : Nat → Nat → Nat) (t : Rect) : ℚ :=
  ((List.range (t.r1 - t.r0)).map (fun i =>
    ((List.range (t.c1 - t.c0)).map (fun j => (f (t.r0 + i) (t.c0 + j) : ℚ))).sum)).sum

/-- The border band half-width `border = int(min_dim * 0.05)`
(src/src/preprocess.py line 34), with real-number semantics for the float
product, i.e. `⌊min_dim / 20⌋`.  Note: no clamping to a minimum of 1. -/
def borderW (gray : Mat) : Nat :=
  min gray.h gray.w * 5 / 100

/-- The centre patch half-size `center = int(min_dim * 0.1) // 2`
(src/src/preprocess.py line 35).  Note: no clamping to a minimum of 1. -/
def centerHalf (gray : Mat) : Nat :=
  min gray.h gray.w * 10 / 100 / 2

/-- The four border strips `image[:border]`, `image[-border:]`,
`image[:, :border]`, `image[:, -border:]` (src/src/preprocess.py lines
38-41), with Python slice-bound normalisation — in particular with
`border = 0` the `-border:` slices select the whole image. -/
def borderRects (image : Img) (gray : Mat) : List Rect :=
  let b := borderW gray
  [⟨0, pyBound (b : Int) image.h, 0, image.w⟩,
   ⟨pyBound (-(b : Int)) image.h, image.h, 0, image.w⟩,
   ⟨0, image.h, 0, pyBound (b : Int) image.w⟩,
   ⟨0, image.h, pyBound (-(b : Int)) image.w, image.w⟩]

/-- Number of rows of the concatenated `border_pixels` array
(src/src/preprocess.py lines 44-49); corner pixels are counted once per
strip that contains them. -/
def borderCount (image : Img) (gray : Mat) : Nat :=
  ((borderRects image gray).map rectCnt).sum

/-- Channel sum of the concatenated border strips. -/
def borderSum (f : Nat → Nat → Nat) (image : Img) (gray : Mat) : ℚ :=
  ((borderRects image gray).map (rectSum f)).sum

/-- Blue channel accessor of a BGR image. -/
def chB (image : Img) : Nat → Nat → Nat := fun r c => (image.pix r c).1

/-- Green channel accessor. -/
def chG (image : Img) : Nat → Nat → Nat := fun r c => (image.pix r c).2.1

/-- Red channel accessor. -/
def chR (image : Img) : Nat → Nat → Nat := fun r c => (image.pix r c).2.2

/-- Mean blue value of the concatenated border strips,
`border_pixels.mean(axis=0)` component B (src/src/preprocess.py line 50). -/
def borderMeanB (image : Img) (gray : Mat) : ℚ :=
  borderSum (chB image) image gray / borderCount image gray

/-- Mean green value of the concatenated border strips. -/
def borderMeanG (image : Img) (gray : Mat) : ℚ :=
  borderSum (chG image) image gray / borderCount image gray

/-- Mean red value of the concatenated border strips. -/
def borderMeanR (image : Img) (gray : Mat) : ℚ :=
  borderSum (chR image) image gray / borderCount image gray

/-- The centre patch `gray_blurred[cy-center : cy+center, cx-center : cx+center]`
(src/src/preprocess.py lines 56-57). -/
def centerRect (gray : Mat) : Rect :=
  let c := centerHalf gray
  let cx := gray.w / 2
  let cy := gray.h / 2
  ⟨pyBound ((cy : Int) - c) gray.h, pyBound ((cy : Int) + c) gray.h,
   pyBound ((cx : Int) - c) gray.w, pyBound ((cx : Int) + c) gray.w⟩

/-- Number of pixels of the centre patch; zero when `centerHalf` is zero,
i.e. when `min_dim < 20`. -/
def centerCount (gray : Mat) : Nat :=
  rectCnt (centerRect gray)

/-- `center_patch.mean()` (src/src/preprocess.py line 58). -/
def centerMean (gray : Mat) : ℚ :=
  rectSum gray.pix (centerRect gray) / centerCount gray

/-- `rgb_to_gray_from_tuple` (src/src/preprocess.py lines 6-17) applied to a
mean `(B, G, R)` triple: `0.114 b + 0.587 g + 0.299 r`. -/
def lumaBGR (b g r : ℚ) : ℚ :=
  114 / 1000 * b + 587 / 1000 * g + 299 / 1000 * r

/-- `np.clip(v, lo, hi)`. -/
def npClip (v lo hi : ℚ) : ℚ :=
  min (max v lo) hi

/-- Python `int(...)` on a float: truncation toward zero (`Rat.floor` is the
largest integer below, so negating the floor of the negation gives the
ceiling, which is the truncation of a negative value). -/
def truncInt (q : ℚ) : ℤ :=
  if q < 0 then -Rat.floor (-q) else Rat.floor q

/-- Python `round(...)` to the nearest integer (ties modelled upward; the
values this development evaluates it on are exact integers, where every
tie-breaking convention agrees). -/
def roundQ (q : ℚ) : ℤ :=
  Rat.floor (q + 1 / 2)

/-- `estimate_threshold_and_border_rgb` (src/src/preprocess.py lines 20-64):
threshold `int(np.clip(border_gray + (center_mean - border_gray) * 0.6, 0, 255))`
together with the rounded mean border `(B, G, R)` triple.  A mean over an
empty pixel set is numpy's NaN, after which `int(...)` / `round(...)` raise;
that failure is modelled as `none`. -/
def estimate_threshold_and_border_rgb (image : Img) (gray : Mat) :
    Option (ℤ × ℤ × ℤ × ℤ) :=
  if borderCount image gray = 0 ∨ centerCount gray = 0 then none
  else
    let border_gray := lumaBGR (borderMeanB image gray) (borderMeanG image gray)
      (borderMeanR image gray)
    some (truncInt (npClip (border_gray + (centerMean gray - border_gray) * (6 / 10)) 0 255),
      roundQ (borderMeanB image gray), roundQ (borderMeanG image gray),
      roundQ (borderMeanR image gray))

/-- The spec's luma formula `0.299 R + 0.587 G + 0.114 B`, written from the
specification's words in its `R, G, B` argument order. -/
def spec_luma (r g b : ℚ) : ℚ :=
  299 / 1000 * r + 587 / 1000 * g + 114 / 1000 * b

/-- The spec's threshold formula, written from the specification's words:
`border_gray + (center_gray - border_gray) * 0.6`, clamped to `[0, 255]` and
truncated to an integer (truncation of a non-negative value is its floor). -/
def spec_threshold (border_gray center_gray : ℚ) : ℤ :=
  Rat.floor (max 0 (min 255 (border_gray + (center_gray - border_gray) * (6 / 10))))

/-- The stage functions `process_tiff` composes (src/edge_detection.py lines
51-59).  Their bodies involve OpenCV primitives and are abstracted; the
controller's own data flow over them is concrete.  Note the detector is
applied to the full result of `preprocess_image` — the `(mask, border_rgb)`
pair — exactly as `find_page_contour(thresh)` receives the tuple `thresh` in
the code. -/
structure Stages where
  preprocess_image : Img → Mat × (ℤ × ℤ × ℤ)
  find_page_contour : Mat × (ℤ × ℤ × ℤ) → Option Contour
  warp_image : Img → Contour → Nat → Img × Img

/-- `np.zeros_like(original)` (src/src/utils.py line 134). -/
def zeros_like (img : Img) : Img :=
  ⟨img.h, img.w, fun _ _ => (0, 0, 0)⟩

/-- `np.copy(image)` (src/edge_detection.py line 56). -/
def copyImg (img : Img) : Img :=
  ⟨img.h, img.w, img.pix⟩

/-- The `(warped, copied)` pair produced by `process_tiff` (src/edge_detection.py
lines 51-59): when `find_page_contour` returns `None` the unmodified copy is
kept with `copied = True`; otherwise the first component of `warp_image`. -/
def process_tiff_warped (S : Stages) (img : Img) (border_pixels : Nat) : Img × Bool :=
  match S.find_page_contour (S.preprocess_image img) with
  | none => (copyImg img, true)
  | some c => ((S.warp_image img c border_pixels).1, false)

/-- The buffer `save_outputs` actually writes to the output path
(src/src/utils.py lines 133-148): when `copied` is set the processed image is
replaced by `np.zeros_like(original)` before saving. -/
def save_outputs_processed (original processed : Img) (copied : Bool) : Img :=
  if copied then zeros_like original else processed

/-- The image the pipeline saves for one input: `process_tiff`
(src/edge_detection.py line 63) hands `(image, warped, copied)` to
`save_outputs`. -/
def process_tiff_saved (S : Stages) (img : Img) (border_pixels : Nat) : Img :=
  save_outputs_processed img (process_tiff_warped S img border_pixels).1
    (process_tiff_warped S img border_pixels).2

/-- The default of the `border_value` parameter of `warp_image`
(src/src/transform.py line 7): `(0, 0, 0)`, i.e. black. -/
def warp_image_default_border_value : ℤ × ℤ × ℤ :=
  (0, 0, 0)

/-- Resolution of the `border_value` argument at a `warp_image` call: Python
substitutes the default when the caller passes nothing. -/
def warp_border_value (passed : Option (ℤ × ℤ × ℤ)) : ℤ × ℤ × ℤ :=
  passed.getD warp_image_default_border_value

/-- The constant border fill used by the affine warp in the pipeline's call
`warp_image(image, page_contour, border_pixels, show_step_by_step)`
(src/edge_detection.py line 59): no `border_value` is passed, so the default
applies. -/
def process_tiff_warp_fill : ℤ × ℤ × ℤ :=
  warp_border_value none

/-- The batch loop of `main` (src/main.py lines 134-176): each image is
processed by a fallible `process` (the `process_tiff` call has no
try/except around it), and an exception propagates out of the loop.  The
result is the list of inputs processed successfully together with the first
error, if any; inputs after a failing one are never reached. -/
def mainLoopTrace {α β ε : Type} (process : α → Except ε β) :
    List α → List α × Option ε
  | [] => ([], none)
  | x :: xs =>
    match process x with
    | .error e => ([], some e)
    | .ok _ =>
      let r := mainLoopTrace process xs
      (x :: r.1, r.2)

/-- A 1×1 colour image with the nonzero pixel `(5, 5, 5)`. -/
def img1 : Img := ⟨1, 1, fun _ _ => (5, 5, 5)⟩

/-- A 1×1 mask, used as an arbitrary binarizer output for pipeline
instantiations. -/
def mask1 : Mat := ⟨1, 1, fun _ _ => 0⟩

/-- A 4-vertex contour approximation. -/
def quad4 : Contour := ⟨4, [(0, 0), (0, 1), (1, 1), (1, 0)]⟩

/-- A 5×5 image every pixel of which is the bright `(200, 200, 200)`: it
binarises to all-foreground (no background pixel). -/
def E5 : Img := ⟨5, 5, fun _ _ => (200, 200, 200)⟩

/-- A 7×7 image every pixel of which is the bright `(180, 180, 180)`. -/
def E7 : Img := ⟨7, 7, fun _ _ => (180, 180, 180)⟩

/-- A stage instantiation whose detector finds no contour. -/
def stagesNone : Stages :=
  ⟨fun _ => (mask1, (0, 0, 0)), fun _ => none, fun img _ _ => (img, img)⟩

/-- A stage instantiation whose detector finds `quad4` and whose warp
produces the background-free image `E5`. -/
def stagesSome : Stages :=
  ⟨fun _ => (mask1, (0, 0, 0)), fun _ => some quad4, fun _ _ _ => (E5, E5)⟩

/-- A contour whose area is the whole 100×100 image area, with a 4-vertex
approximation: the trivial whole-image candidate. -/
def whole100 : Contour := ⟨10000, [(0, 0), (0, 99), (99, 99), (99, 0)]⟩

/-- A contour whose area is the whole 50×60 image area. -/
def whole3000 : Contour := ⟨3000, [(0, 0), (0, 59), (49, 59), (49, 0)]⟩

/-- A uniform 20×20 colour image with pixel `(200, 200, 200)`. -/
def img20 : Img := ⟨20, 20, fun _ _ => (200, 200, 200)⟩

/-- Its blurred grayscale counterpart (uniform gray 200). -/
def gray20 : Mat := ⟨20, 20, fun _ _ => 200⟩

/-- A uniform 10×10 colour image (minimum dimension below 20). -/
def img10 : Img := ⟨10, 10, fun _ _ => (200, 200, 200)⟩

/-- Its blurred grayscale counterpart. -/
def gray10 : Mat := ⟨10, 10, fun _ _ => 200⟩

/-- A per-image processor that fails on input 0 and succeeds elsewhere. -/
def failingProcess : Nat → Except Unit Nat :=
  fun n => if n = 0 then .error () else .ok n

/-- A 3×3 binary mask whose top-left corner is background, with the row-axis
discontinuity one step away and the column-axis discontinuity two steps
away. -/
def bW3 : Mat := ⟨3, 3, fun r c => if r = 0 ∧ c ≤ 1 then 255 else 0⟩

/-- The crop entry `navigate_edges` produces for the top-left corner of
`bW3`. -/
def eW : CropEntry := ⟨(0, 0), 0, true⟩

/-- A 2×3 all-foreground mask. -/
def bC10 : Mat := ⟨2, 3, fun _ _ => 0⟩

/-- A coordinate pair accessed by the corner navigation on `bC10`. -/
def pC10 : Int × Int := (0, 0)

/-- `runLen` starting at an index where the predicate already fails is 0. -/
theorem runLen_eq_zero (p : Nat → Bool) (n : Nat) (h1 : 1 ≤ n) (h0 : p 0 = false) :
    runLen p n 0 = 0 := by
  cases n with
  | zero => simp at h1
  | succ m => simp [runLen, h0]

/-- `pyBound 1 n = 1` whenever the axis is nonempty enough. -/
theorem pyBound_one (n : Nat) (h : 1 ≤ n) : pyBound 1 n = 1 := by
  unfold pyBound
  split <;> omega

/-- `pyBound (n - 1) n = n - 1`. -/
theorem pyBound_sub_one (n : Nat) : pyBound ((n : Int) - 1) n = n - 1 := by
  unfold pyBound
  split <;> omega

/-- A row of a binarised image whose first pixel is foreground is not
all-background. -/
theorem rowAllBg_false (b : Mat) (r : Nat) (hw : 1 ≤ b.w) (h0 : b.pix r 0 = 0) :
    rowAllBg b r = false := by
  obtain ⟨w, hww⟩ : ∃ w, b.w = w + 1 := ⟨b.w - 1, by omega⟩
  simp [rowAllBg, hww, List.range_succ_eq_map, h0]

/-- A column of a binarised image whose first pixel is foreground is not
all-background. -/
theorem colAllBg_false (b : Mat) (c : Nat) (hh : 1 ≤ b.h) (h0 : b.pix 0 c = 0) :
    colAllBg b c = false := by
  obtain ⟨h, hhh⟩ : ∃ h, b.h = h + 1 := ⟨b.h - 1, by omega⟩
  simp [colAllBg, hhh, List.range_succ_eq_map, h0]

/-- C1 counterexample: for the 1×1 input `img1` with nonzero pixel, on which
the Region Detector returns `NONE`, the saved output is not byte-identical
to the input. -/
theorem C1_cex :
    stagesNone.find_page_contour (stagesNone.preprocess_image img1) = none ∧
    process_tiff_saved stagesNone img1 0 ≠ img1 := by
  refine ⟨rfl, fun hEq => ?_⟩
  have h5 : ((0, 0, 0) : Nat × Nat × Nat) = (5, 5, 5) :=
    congrArg (fun m => m.pix 0 0) hEq
  exact absurd h5 (by decide)

/-- C1 (amended): for every input image on which the Region Detector returns
`NONE`, the pipeline's saved output is an all-zero (black) image of the
input's shape — `save_outputs` replaces the unmodified copy with
`np.zeros_like(original)` when `copied` is set — not the unmodified input. -/
theorem C1_thm (S : Stages) (img : Img) (bp : Nat)
    (h : S.find_page_contour (S.preprocess_image img) = none) :
    process_tiff_saved S img bp = zeros_like img := by
  simp [process_tiff_saved, process_tiff_warped, save_outputs_processed, h]

/-- C1 witness: the amended statement at the concrete no-detection input. -/
theorem C1_w : process_tiff_saved stagesNone E7 0 = zeros_like E7 :=
  C1_thm stagesNone E7 0 rfl

/-- C2 counterexample: a concrete pipeline run in which a region is
detected, yet the saved output is the Perspective Corrector's image itself
and differs from the Border Refiner's result on that image. -/
theorem C2_cex :
    stagesSome.find_page_contour (stagesSome.preprocess_image img1) = some quad4 ∧
    process_tiff_saved stagesSome img1 0 ≠
      remove_lateral_blacks (stagesSome.warp_image img1 quad4 0).1
        (stagesSome.warp_image img1 quad4 0).1 := by
  refine ⟨rfl, fun hEq => ?_⟩
  have h1 : (process_tiff_saved stagesSome img1 0).h = 5 := by decide
  have h2 : (remove_lateral_blacks (stagesSome.warp_image img1 quad4 0).1
      (stagesSome.warp_image img1 quad4 0).1).h = 3 := by decide
  have h3 := congrArg Img.h hEq
  rw [h1, h2] at h3
  exact absurd h3 (by decide)

/-- C2 (amended): the Pipeline Controller hands the Binarizer's full result
pair (mask and border colour) to the Region Detector and, when a region is
detected, the Perspective Corrector's rotated/cropped image is itself the
final saved output; the Border Refiner (`remove_lateral_blacks`) is never
invoked — its import in src/edge_detection.py is commented out. -/
theorem C2_thm (S : Stages) (img : Img) (bp : Nat) (c : Contour)
    (h : S.find_page_contour (S.preprocess_image img) = some c) :
    process_tiff_saved S img bp = (S.warp_image img c bp).1 := by
  simp [process_tiff_saved, process_tiff_warped, save_outputs_processed, h]

/-- C2 witness: the amended statement at the concrete detected-region
input. -/
theorem C2_w : process_tiff_saved stagesSome img1 0 = (stagesSome.warp_image img1 quad4 0).1 :=
  C2_thm stagesSome img1 0 quad4 rfl

/-- C3 counterexample: in the batch `[0, 1]`, image 0 fails and image 1
would succeed, yet image 1 is not processed — the failure aborts the rest of
the batch. -/
theorem C3_cex :
    failingProcess 1 = Except.ok 1 ∧
    (mainLoopTrace failingProcess [0, 1]).1 = [] ∧
    1 ∉ (mainLoopTrace failingProcess [0, 1]).1 := by
  refine ⟨rfl, rfl, by decide⟩

/-- C3 (amended): a failure raised while processing one image propagates out
of the `main` loop (there is no per-image try/except around `process_tiff`):
the failing image and every subsequent image of the batch are left
unprocessed. -/
theorem C3_thm {α β ε : Type} (process : α → Except ε β) (x : α) (xs : List α)
    (e : ε) (h : process x = .error e) :
    mainLoopTrace process (x :: xs) = ([], some e) := by
  simp [mainLoopTrace, h]

/-- C3 witness: the amended statement on a concrete three-image batch whose
first image fails. -/
theorem C3_w : mainLoopTrace failingProcess [0, 1, 2] = ([], some ()) :=
  C3_thm failingProcess 0 [1, 2] () rfl

/-- C4 counterexample: a binary mask whose only contour covers the whole
100×100 image area and approximates to 4 vertices; `find_page_contour`
returns it instead of rejecting it (it does not return `NONE`). -/
theorem C4_cex :
    whole100.area = 100 * 100 ∧
    find_page_contour [whole100] = some whole100 ∧
    find_page_contour [whole100] ≠ none := by
  refine ⟨rfl, by decide, by decide⟩

/-- C4 (amended): `find_page_contour` applies no area-based rejection at
all: any contour whose approximation has at least 4 vertices is returned
even when its area equals the entire image area `h * w`. -/
theorem C4_thm (hI wI : Nat) (c : Contour) (_h1 : c.area = hI * wI)
    (h2 : 4 ≤ c.approx.length) : find_page_contour [c] = some c := by
  simp [find_page_contour, sortAreaDesc, insertAreaDesc, List.find?, h2]

/-- C4 witness: the amended statement at a concrete whole-image contour. -/
theorem C4_w : find_page_contour [whole3000] = some whole3000 :=
  C4_thm 50 60 whole3000 rfl (by decide)

set_option maxRecDepth 16000 in
/-- C5 counterexample: for the 20×20 image `img20` the Binarizer's estimated
border colour is `(200, 200, 200)`, while the fill the pipeline's warp call
uses is the default `(0, 0, 0)` — a fixed black fill, not the estimate. -/
theorem C5_cex :
    (estimate_threshold_and_border_rgb img20 gray20).map (fun t => t.2) =
      some ((200 : ℤ), (200 : ℤ), (200 : ℤ)) ∧
    process_tiff_warp_fill = (0, 0, 0) ∧
    ((200 : ℤ), (200 : ℤ), (200 : ℤ)) ≠ process_tiff_warp_fill := by
  refine ⟨by with_unfolding_all rfl, rfl, by decide⟩

/-- C5 (amended): the pipeline's `warp_image` call passes no fill colour, so
the affine warp's constant border fill is the parameter default
`(0, 0, 0)` (black); the Binarizer's estimated border colour is computed but
discarded, and whenever that estimate is not black the fill differs from
it. -/
theorem C5_thm (image : Img) (gray : Mat) (t : ℤ) (rgb : ℤ × ℤ × ℤ)
    (_hest : estimate_threshold_and_border_rgb image gray = some (t, rgb))
    (hne : rgb ≠ (0, 0, 0)) :
    process_tiff_warp_fill ≠ rgb := by
  have hfill : process_tiff_warp_fill = (0, 0, 0) := rfl
  rw [hfill]
  exact fun hEq => hne hEq.symm

set_option maxRecDepth 16000 in
/-- C5 witness: the amended statement at the concrete 20×20 image. -/
theorem C5_w : process_tiff_warp_fill ≠ ((200 : ℤ), (200 : ℤ), (200 : ℤ)) :=
  C5_thm img20 gray20 200 (200, 200, 200) (by with_unfolding_all rfl) (by decide)

/-- C6 counterexample: the 5×5 background-free image `E5` (its binarisation
contains no 255 pixels) loses two rows and two columns on the first run of
the Border Refiner, and a second run on that output shrinks it further: the
refiner is not idempotent. -/
theorem C6_cex :
    (∀ r, r < 5 → ∀ c, c < 5 → (binaryInv50 E5).pix r c ≠ 255) ∧
    (remove_lateral_blacks E5 E5).h < E5.h ∧
    (remove_lateral_blacks (remove_lateral_blacks E5 E5) (remove_lateral_blacks E5 E5)).h <
      (remove_lateral_blacks E5 E5).h := by
  decide

/-- C6 (amended): on any pair of equal-shaped buffers of dimensions at least
3 whose colour buffer binarises with no background pixel at all, the Border
Refiner still removes exactly one row/column on every side — Pass 1's
unconditional `+1`/`-1` trim — so the output is `(h-2) × (w-2)`; running the
refiner again on its own output therefore shrinks it further, and the
refiner is not idempotent. -/
theorem C6_thm (warped ww : Img) (hsh : ww.h = warped.h) (hsw : ww.w = warped.w)
    (hh : 3 ≤ warped.h) (hw : 3 ≤ warped.w)
    (hbg : ∀ r c, 50 < grayOf (warped.pix r c)) :
    (remove_lateral_blacks warped ww).h = warped.h - 2 ∧
    (remove_lateral_blacks warped ww).w = warped.w - 2 := by
  have hbw : (binaryInv50 warped).w = warped.w := rfl
  have hbh : (binaryInv50 warped).h = warped.h := rfl
  have hpix : ∀ r c, (binaryInv50 warped).pix r c = 0 := by
    intro r c
    simp [binaryInv50, hbg r c]
  have hrow : ∀ r, rowAllBg (binaryInv50 warped) r = false := by
    intro r
    exact rowAllBg_false _ r (by omega) (hpix r 0)
  have hcol : ∀ c, colAllBg (binaryInv50 warped) c = false := by
    intro c
    exact colAllBg_false _ c (by omega) (hpix 0 c)
  have htop : topBlack (binaryInv50 warped) = 0 := by
    unfold topBlack
    rw [runLen_eq_zero _ _ (by omega) (hrow 0)]
  have hbot : bottomBlack (binaryInv50 warped) = warped.h := by
    unfold bottomBlack
    rw [runLen_eq_zero
      (fun i => rowAllBg (binaryInv50 warped) ((binaryInv50 warped).h - 1 - i))
      (binaryInv50 warped).h (by rw [hbh]; omega) (hrow _)]
    rw [hbh]
    omega
  have hleft : leftBlack (binaryInv50 warped) = 0 := by
    unfold leftBlack
    rw [runLen_eq_zero _ _ (by omega) (hcol 0)]
  have hright : rightBlack (binaryInv50 warped) = warped.w := by
    unfold rightBlack
    rw [runLen_eq_zero
      (fun i => colAllBg (binaryInv50 warped) ((binaryInv50 warped).w - 1 - i))
      (binaryInv50 warped).w (by rw [hbw]; omega) (hcol _)]
    rw [hbw]
    omega
  have hc : crop_black_borders warped ww (binaryInv50 warped) =
      (imgSlice warped 1 ((warped.h : Int) - 1) 1 ((warped.w : Int) - 1),
       imgSlice ww 1 ((warped.h : Int) - 1) 1 ((warped.w : Int) - 1)) := by
    unfold crop_black_borders
    rw [htop, hbot, hleft, hright]
    norm_num
  have hpixc : ∀ r c,
      (binaryInv50 (crop_black_borders warped ww (binaryInv50 warped)).1).pix r c = 0 := by
    intro r c
    rw [hc]
    simp [binaryInv50, imgSlice, hbg]
  have hnav : ∀ cid,
      navigate_edges (binaryInv50 (crop_black_borders warped ww (binaryInv50 warped)).1) cid
        = none := by
    intro cid
    simp [navigate_edges, Mat.pixI, hpixc]
  have happ :
      (apply_cropping
        (navigate_edges (binaryInv50 (crop_black_borders warped ww (binaryInv50 warped)).1))
        (binaryInv50 (crop_black_borders warped ww (binaryInv50 warped)).1)
        (crop_black_borders warped ww (binaryInv50 warped)).1
        (crop_black_borders warped ww (binaryInv50 warped)).2).2.2
        = (crop_black_borders warped ww (binaryInv50 warped)).2 := by
    simp [apply_cropping, cornerOrder, hnav]
  have hres : remove_lateral_blacks warped ww
      = (crop_black_borders warped ww (binaryInv50 warped)).2 := by
    unfold remove_lateral_blacks
    exact happ
  rw [hres, hc]
  have p1h : pyBound 1 ww.h = 1 := pyBound_one ww.h (by omega)
  have p1w : pyBound 1 ww.w = 1 := pyBound_one ww.w (by omega)
  have p2h : pyBound ((warped.h : Int) - 1) ww.h = warped.h - 1 := by
    rw [hsh]
    exact pyBound_sub_one warped.h
  have p2w : pyBound ((warped.w : Int) - 1) ww.w = warped.w - 1 := by
    rw [hsw]
    exact pyBound_sub_one warped.w
  constructor
  · show pyBound ((warped.h : Int) - 1) ww.h - pyBound 1 ww.h = warped.h - 2
    rw [p1h, p2h]
    omega
  · show pyBound ((warped.w : Int) - 1) ww.w - pyBound 1 ww.w = warped.w - 2
    rw [p1w, p2w]
    omega

/-- C6 witness: the amended statement at the concrete 7×7 background-free
image. -/
theorem C6_w :
    (remove_lateral_blacks E7 E7).h = E7.h - 2 ∧
    (remove_lateral_blacks E7 E7).w = E7.w - 2 :=
  C6_thm E7 E7 rfl rfl (by decide) (by decide)
    (fun _ _ => by show 50 < grayOf (180, 180, 180); decide)

/-- C7: for each corner of any binary mask, Pass-2 navigation proposes no
crop when the corner pixel is foreground (not 255); otherwise the proposed
crop lies on the axis of strictly smaller displacement from the corner to
the discontinuity (row axis if the row displacement is smaller, column axis
if the column displacement is smaller), with the crop point being the corner
coordinate on the other axis and the discontinuity coordinate on the chosen
axis, and the keep side is `after` exactly when the corner's scan direction
on the chosen axis equals 1. -/
theorem C7_thm (b : Mat) (cid : CornerId) :
    (b.pixI (cornerPoint b cid).1 (cornerPoint b cid).2 ≠ 255 →
      navigate_edges b cid = none) ∧
    (∀ e, navigate_edges b cid = some e →
      (rowDisp b cid < colDisp b cid →
        e.axis = 0 ∧ e.point = (rowDiscont b cid, (cornerPoint b cid).2)) ∧
      (colDisp b cid < rowDisp b cid →
        e.axis = 1 ∧ e.point = ((cornerPoint b cid).1, colDiscont b cid)) ∧
      (e.keepAfter = true ↔
        (if e.axis = 0 then (cornerDir cid).1 else (cornerDir cid).2) = 1)) := by
  constructor
  · intro hfg
    unfold navigate_edges
    rw [if_neg hfg]
  · intro e he
    unfold navigate_edges at he
    by_cases hg : b.pixI (cornerPoint b cid).1 (cornerPoint b cid).2 = 255
    · rw [if_pos hg] at he
      by_cases hd : rowDisp b cid ≤ colDisp b cid
      · rw [if_pos hd] at he
        obtain rfl : e = ⟨(rowDiscont b cid, (cornerPoint b cid).2), 0, (cornerDir cid).1 == 1⟩ :=
          (Option.some.inj he).symm
        refine ⟨fun _ => ⟨rfl, rfl⟩, fun hlt => absurd hd (by omega), ?_⟩
        simp
      · rw [if_neg hd] at he
        obtain rfl : e = ⟨((cornerPoint b cid).1, colDiscont b cid), 1, (cornerDir cid).2 == 1⟩ :=
          (Option.some.inj he).symm
        refine ⟨fun hlt => absurd hlt (by omega), fun _ => ⟨rfl, rfl⟩, ?_⟩
        simp
    · rw [if_neg hg] at he
      exact absurd he (by simp)

/-- C7 witness: the top-left corner of `bW3` is background with row
displacement 0 and column displacement 1, and the produced crop entry picks
the row axis with keep side `after`. -/
theorem C7_w :
    navigate_edges bW3 CornerId.tl = some eW ∧
    rowDisp bW3 CornerId.tl < colDisp bW3 CornerId.tl ∧
    eW.axis = 0 ∧ eW.keepAfter = true := by
  refine ⟨by decide, by decide, ?_, ?_⟩
  · exact (((C7_thm bW3 CornerId.tl).2 eW (by decide)).1 (by decide)).1
  · exact (((C7_thm bW3 CornerId.tl).2 eW (by decide)).2.2).mpr (by decide)

/-- C10: for every binary mask with positive height and width and each of
the four corner descriptors derived from its shape, every coordinate in the
access list of the Pass-2 corner navigation — the corner pixel plus every
index of the two bounded scan loops, of which the executed accesses are a
prefix — lies inside `[0, h) × [0, w)`. -/
theorem C10_thm (b : Mat) (cid : CornerId) (hh : 1 ≤ b.h) (hw : 1 ≤ b.w) :
    ∀ p ∈ navAccesses b cid,
      0 ≤ p.1 ∧ p.1 < (b.h : Int) ∧ 0 ≤ p.2 ∧ p.2 < (b.w : Int) := by
  intro p hp
  rcases List.mem_cons.1 hp with hp | hp
  · subst hp
    cases cid <;> simp [cornerPoint] <;> omega
  · rcases List.mem_append.1 hp with hp | hp
    · obtain ⟨i, hi, rfl⟩ := List.mem_map.1 hp
      have hi := List.mem_range.1 hi
      cases cid <;> simp [rowAccessIndex, cornerPoint, cornerDir] <;> omega
    · obtain ⟨i, hi, rfl⟩ := List.mem_map.1 hp
      have hi := List.mem_range.1 hi
      cases cid <;> simp [colAccessIndex, cornerPoint, cornerDir] <;> omega

/-- C10 witness: the statement at the 2×3 mask `bC10`, top-left corner,
access `(0, 0)`. -/
theorem C10_w :
    0 ≤ pC10.1 ∧ pC10.1 < (bC10.h : Int) ∧ 0 ≤ pC10.2 ∧ pC10.2 < (bC10.w : Int) :=
  C10_thm bC10 CornerId.tl (by decide) (by decide) pC10 (by decide)

/-- `np.clip(v, 0, 255)` equals the clamp written max-outside as in the
specification. -/
theorem npClip_eq (v : ℚ) : npClip v 0 255 = max 0 (min 255 v) := by
  unfold npClip
  rcases le_total v 0 with h | h
  · rw [max_eq_right h, min_eq_left (by norm_num : (0 : ℚ) ≤ 255),
      min_eq_right (h.trans (by norm_num)), max_eq_left h]
  · rcases le_total v 255 with h2 | h2
    · rw [max_eq_left h, min_eq_left h2, min_eq_right h2, max_eq_right h]
    · rw [max_eq_left (le_trans (by norm_num) h2), min_eq_right h2, min_eq_left h2,
        max_eq_right (by norm_num : (0 : ℚ) ≤ 255)]

/-- Truncation toward zero of a non-negative rational is its floor. -/
theorem truncInt_nonneg (q : ℚ) (h : 0 ≤ q) : truncInt q = Rat.floor q := by
  unfold truncInt
  rw [if_neg (not_lt.2 h)]

/-- C8: whenever the border strips and centre patch are nonempty, the
threshold component of `estimate_threshold_and_border_rgb` equals the
specification's formula: the floor of
`clamp(border_gray + (center_gray - border_gray) * 0.6, 0, 255)`, where
`border_gray` is the spec's luma `0.299 R + 0.587 G + 0.114 B` of the mean
border colour and `center_gray` is the mean gray value of the centre
patch. -/
theorem C8_thm (image : Img) (gray : Mat)
    (hb : borderCount image gray ≠ 0) (hc : centerCount gray ≠ 0) :
    (estimate_threshold_and_border_rgb image gray).map Prod.fst =
      some (spec_threshold
        (spec_luma (borderMeanR image gray) (borderMeanG image gray) (borderMeanB image gray))
        (centerMean gray)) := by
  have hluma : lumaBGR (borderMeanB image gray) (borderMeanG image gray) (borderMeanR image gray)
      = spec_luma (borderMeanR image gray) (borderMeanG image gray) (borderMeanB image gray) := by
    unfold lumaBGR spec_luma
    ring
  unfold estimate_threshold_and_border_rgb
  rw [if_neg (by push_neg; exact ⟨hb, hc⟩)]
  simp only [Option.map_some']
  congr 1
  rw [npClip_eq, truncInt_nonneg _ (le_max_left _ _), hluma]
  rfl

/-- C8 witness: the statement at the concrete uniform 20×20 image. -/
theorem C8_w :
    borderCount img20 gray20 ≠ 0 ∧ centerCount gray20 ≠ 0 ∧
    (estimate_threshold_and_border_rgb img20 gray20).map Prod.fst =
      some (spec_threshold
        (spec_luma (borderMeanR img20 gray20) (borderMeanG img20 gray20)
          (borderMeanB img20 gray20))
        (centerMean gray20)) :=
  ⟨by decide, by decide, C8_thm img20 gray20 (by decide) (by decide)⟩

/-- C9: the Binarizer performs no patch-size clamping.  For the 10×10 image
(minimum dimension 10 < 20) the border band width `int(min_dim * 0.05)` is 0
and the centre half-size `int(min_dim * 0.1) // 2` is 0, so the centre patch
is empty: its numpy mean is NaN and the subsequent `int(...)` conversion
raises — modelled as `estimate_threshold_and_border_rgb` returning `none`
instead of a threshold. -/
theorem C9_thm :
    borderW gray10 = 0 ∧ centerHalf gray10 = 0 ∧ centerCount gray10 = 0 ∧
    estimate_threshold_and_border_rgb img10 gray10 = none := by
  refine ⟨rfl, rfl, rfl, ?_⟩
  unfold estimate_threshold_and_border_rgb
  rw [if_pos]
  right
  rfl
